import Mathlib

/-!
Verification of the meeting-bot real-time audio bridge (src/audio.js and
src/geminiLive.js) against its natural-language specification.

The JavaScript source is shallowly embedded: byte buffers become `List Nat`
(each element a byte value), 16-bit PCM reads/writes are modelled with
explicit two's-complement arithmetic, and the per-call mutable state of
`createGeminiLiveTranslator` becomes an explicit state record threaded
through pure transition functions.  Timers are modelled by a Boolean
"interval is set" flag plus an explicit tick function; the tick only runs
while the flag is set.
-/

set_option maxRecDepth 100000

namespace MeetingBot

/-- Two's-complement read of a 16-bit little-endian byte pair, as in
Node's `Buffer.readInt16LE`. -/
def readInt16LE (lo hi : Nat) : Int :=
  let w := lo % 256 + (hi % 256) * 256
  if w < 32768 then (w : Int) else (w : Int) - 65536

/-- Two's-complement write of a 16-bit value as a little-endian byte pair,
as in Node's `Buffer.writeInt16LE`. -/
def writeInt16LE (v : Int) : List Nat :=
  let w := (v % 65536).toNat
  [w % 256, w / 256]

/-- The 256-entry G.711 mu-law decode table of src/audio.js, expressed as a
function of the byte: `u = (~i) & 0xff`, sign from bit 7 of `u`, 3-bit
exponent, 4-bit mantissa, `sample = ((mantissa << 3) + 0x84) << exponent - 0x84`. -/
def MULAW_DECODE_TABLE (i : Nat) : Int :=
  let u := 255 - i % 256
  let sign : Int := if 128 ≤ u then -1 else 1
  let exponent := (u >>> 4) &&& 7
  let mantissa := u &&& 15
  let sample := ((mantissa <<< 3) + 0x84) <<< exponent - 0x84
  sign * (sample : Int)

/-- `mulawToPcm` of src/audio.js: expand each mu-law byte to a 16-bit
little-endian PCM sample via the decode table. -/
def mulawToPcm : List Nat → List Nat
  | [] => []
  | b :: rest => writeInt16LE (MULAW_DECODE_TABLE b) ++ mulawToPcm rest

/-- The clamp to the signed 16-bit range used by `pcmToMulaw`. -/
def clamp16 (x : Int) : Int := max (-32768) (min 32767 x)

/-- The exponent-search loop of `pcmToMulaw`: the smallest `exp < 8` with
`sample ≤ 0x1f << (exp + 2)`, defaulting to 7 (the `exp = 7` test and the
default initialisation coincide, so the chain stops at 6). -/
def muLawExponent (sample : Nat) : Nat :=
  if sample ≤ 31 <<< 2 then 0
  else if sample ≤ 31 <<< 3 then 1
  else if sample ≤ 31 <<< 4 then 2
  else if sample ≤ 31 <<< 5 then 3
  else if sample ≤ 31 <<< 6 then 4
  else if sample ≤ 31 <<< 7 then 5
  else if sample ≤ 31 <<< 8 then 6
  else 7

/-- One sample of `pcmToMulaw` of src/audio.js: clamp, take sign and
magnitude, clamp magnitude to 32635, add the 0x84 bias, find the exponent,
extract the mantissa, pack and invert all bits (the store into the byte
buffer truncates `~mulaw` to `255 - mulaw`). -/
def pcmToMulawSample (s : Int) : Nat :=
  let sample := clamp16 s
  let sign : Nat := if sample < 0 then 1 else 0
  let mag : Nat := (if sample < 0 then -sample else sample).toNat
  let mag := if 32635 < mag then 32635 else mag
  let biased := mag + 0x84
  let exponent := muLawExponent biased
  let mantissa := (biased >>> (exponent + 3)) &&& 15
  255 - ((sign <<< 7) ||| (exponent <<< 4) ||| mantissa)

/-- `pcmToMulaw` of src/audio.js: the output buffer is allocated with
`pcmBuf.length / 2` entries (JS real division; the typed-array constructor
truncates a fractional size), so a trailing odd byte is ignored. -/
def pcmToMulaw : List Nat → List Nat
  | lo :: hi :: rest => pcmToMulawSample (readInt16LE lo hi) :: pcmToMulaw rest
  | _ => []

/-- The external collaborators seen by `createGeminiLiveTranslator`: the
call-transport websocket (readiness state, as in `ws.readyState`) and the
`getStreamSid` capability. -/
structure Env where
  streamSid : Option String
  wsReadyState : Nat

/-- The per-call mutable state of `createGeminiLiveTranslator` in
src/geminiLive.js.  Timers and attached subprocesses are modelled by
Booleans ("the interval is set" / "the handle is non-null"). -/
structure GLState where
  outboundMulawQueue : List (List Nat)
  outboundPlaybackTimer : Bool
  outboundPcm8kRemainder : List Nat
  fallbackPcm24kBuffer : List Nat
  ffmpegResampler : Bool
  ffmpegUnavailable : Bool
  ffmpegPcmCarry : List Nat
  currentTurnTranscript : String
  geminiFrameCarry : List Nat
  geminiSessionOpen : Bool
deriving DecidableEq

/-- The initial values of the closure-local variables of
`createGeminiLiveTranslator`. -/
def initialState : GLState :=
  { outboundMulawQueue := []
    outboundPlaybackTimer := false
    outboundPcm8kRemainder := []
    fallbackPcm24kBuffer := []
    ffmpegResampler := false
    ffmpegUnavailable := false
    ffmpegPcmCarry := []
    currentTurnTranscript := ""
    geminiFrameCarry := []
    geminiSessionOpen := false }

/-- `ensureOutboundPlayback`: start the 20 ms interval unless it is
already set. -/
def ensureOutboundPlayback (st : GLState) : GLState :=
  if st.outboundPlaybackTimer then st else { st with outboundPlaybackTimer := true }

/-- `stopOutboundPlayback`: clear the interval if it is set. -/
def stopOutboundPlayback (st : GLState) : GLState :=
  if st.outboundPlaybackTimer then { st with outboundPlaybackTimer := false } else st

/-- `stopFfmpegResampler`: drop the resampler-side carry, end/kill the
subprocess if attached, and detach it. -/
def stopFfmpegResampler (st : GLState) : GLState :=
  let st := { st with ffmpegPcmCarry := [] }
  if st.ffmpegResampler then { st with ffmpegResampler := false } else st

/-- The `while (offset + FRAME_BYTES_PCM16 <= buf.length)` loop of
`enqueueOutboundPcm8k`: split the buffer into consecutive 320-byte PCM
frames plus the remaining tail. -/
def frameSplitLoop (buf : List Nat) : List (List Nat) × List Nat :=
  if h : 320 ≤ buf.length then
    let rest := frameSplitLoop (buf.drop 320)
    (buf.take 320 :: rest.1, rest.2)
  else ([], buf)
termination_by buf.length
decreasing_by simp only [List.length_drop]; omega

/-- The int16-alignment trim at the top of `enqueueOutboundPcm8k`:
`if (pcm8k.length % 2 !== 0) pcm8k = pcm8k.subarray(0, pcm8k.length - 1)`. -/
def trimToEven (p : List Nat) : List Nat :=
  if p.length % 2 ≠ 0 then p.take (p.length - 1) else p

/-- `enqueueOutboundPcm8k` of src/geminiLive.js: ignore empty input, trim a
trailing odd byte, prepend the carried remainder, encode each complete
320-byte PCM frame to a 160-byte mu-law frame onto the Outbound Queue,
keep the tail as the new remainder, and start playback if the queue is
non-empty. -/
def enqueueOutboundPcm8k (st : GLState) (pcm8kIn : List Nat) : GLState :=
  if pcm8kIn.length = 0 then st
  else
    let pcm8k := trimToEven pcm8kIn
    if pcm8k.length = 0 then st
    else
      let buf := st.outboundPcm8kRemainder ++ pcm8k
      let split := frameSplitLoop buf
      let st' := { st with
        outboundMulawQueue := st.outboundMulawQueue ++ split.1.map pcmToMulaw
        outboundPcm8kRemainder := split.2 }
      if 0 < st'.outboundMulawQueue.length then ensureOutboundPlayback st' else st'

/-- `flushOutboundPcmRemainderWithSilence`: pad a non-empty remainder once
with zero bytes to a full 320-byte PCM frame and enqueue it. -/
def flushOutboundPcmRemainderWithSilence (st : GLState) : GLState :=
  if st.outboundPcm8kRemainder.length = 0 then st
  else
    let padded := st.outboundPcm8kRemainder ++
      List.replicate (320 - st.outboundPcm8kRemainder.length) 0
    enqueueOutboundPcm8k { st with outboundPcm8kRemainder := [] } padded

/-- `resetOutboundAudioPipeline`: drop the Outbound Queue, the PCM
remainder and the fallback 24 kHz buffer, stop playback, stop the ffmpeg
resampler, and clear the resampler-side carry. -/
def resetOutboundAudioPipeline (st : GLState) : GLState :=
  let st := { st with
    outboundMulawQueue := []
    outboundPcm8kRemainder := []
    fallbackPcm24kBuffer := [] }
  let st := stopOutboundPlayback st
  let st := stopFfmpegResampler st
  { st with ffmpegPcmCarry := [] }

/-- The frame loop of `playTts`: consecutive 160-byte mu-law frames, the
final partial frame padded with the mu-law silence byte 0x7f. -/
def ttsFrames (mulaw : List Nat) : List (List Nat) :=
  if mulaw.length = 0 then []
  else if h : 160 ≤ mulaw.length then mulaw.take 160 :: ttsFrames (mulaw.drop 160)
  else [mulaw ++ List.replicate (160 - mulaw.length) 0x7f]
termination_by mulaw.length
decreasing_by simp only [List.length_drop]; omega

/-- `playTts` of src/geminiLive.js: guard on non-empty text, an available
stream id and an open websocket; synthesize mu-law audio via the
text-to-speech collaborator (`generateTtsAudioForText`, passed as a
function since it is an external collaborator); push its 160-byte frames
(final partial frame padded with 0x7f) onto the Outbound Queue and ensure
playback. -/
def playTts (env : Env) (tts : String → List Nat) (st : GLState) (text : String) : GLState :=
  if text = "" ∨ env.streamSid = none ∨ env.wsReadyState ≠ 1 then st
  else
    let mulaw := tts text
    if mulaw.length = 0 then st
    else
      ensureOutboundPlayback
        { st with outboundMulawQueue := st.outboundMulawQueue ++ ttsFrames mulaw }

/-- A message from the backend live session, as consumed by the `onmessage`
callback: an interruption flag, optional binary audio (`message.data`,
already base64-decoded to bytes), optional output-transcription text, and a
turn-complete flag. -/
structure ServerMessage where
  interrupted : Bool
  data : Option (List Nat)
  outputTranscriptionText : Option String
  turnComplete : Bool

/-- The `onmessage` callback of `ensureGeminiSession` in src/geminiLive.js,
embedding only its live code: on interruption clear the transcript and
reset the outbound pipeline; accumulate trimmed transcription chunks; on
turn completion play the accumulated transcript via TTS and clear it.  The
block handling `message.data` (resample / encode / enqueue) is commented
out in the source, so `data` is never consulted. -/
def onmessage (env : Env) (tts : String → List Nat) (msg : ServerMessage)
    (st : GLState) : GLState :=
  if msg.interrupted then
    resetOutboundAudioPipeline { st with currentTurnTranscript := "" }
  else
    let st :=
      match msg.outputTranscriptionText with
      | some t =>
        let chunk := t.trim
        if chunk ≠ "" then
          { st with currentTurnTranscript :=
              if st.currentTurnTranscript ≠ "" then
                st.currentTurnTranscript ++ " " ++ chunk
              else chunk }
        else st
      | none => st
    if msg.turnComplete then
      let st' :=
        if st.currentTurnTranscript.trim ≠ "" then
          playTts env tts st st.currentTurnTranscript.trim
        else st
      { st' with currentTurnTranscript := "" }
    else st

/-- The observable outcome of one pacer tick (`sendOneOutboundFrame`): the
new state, the media frame sent to the transport (if any), whether a mark
message was sent, and the warnings logged. -/
structure TickResult where
  st : GLState
  sent : Option (List Nat)
  markSent : Bool
  logs : List String
deriving DecidableEq

/-- `sendOneOutboundFrame` of src/geminiLive.js: if no stream id is
available or the websocket is not open, stop playback; if the queue is
empty, stop playback; otherwise shift one frame, drop it with a warning if
it is not 160 bytes, else send it, and if the queue just drained send one
mark and stop playback. -/
def sendOneOutboundFrame (env : Env) (st : GLState) : TickResult :=
  if env.streamSid = none ∨ env.wsReadyState ≠ 1 then
    { st := stopOutboundPlayback st, sent := none, markSent := false, logs := [] }
  else
    match st.outboundMulawQueue with
    | [] => { st := stopOutboundPlayback st, sent := none, markSent := false, logs := [] }
    | frame :: rest =>
      if frame.length ≠ 160 then
        { st := { st with outboundMulawQueue := rest }, sent := none, markSent := false,
          logs := ["bad mulaw frame size"] }
      else
        let st' := { st with outboundMulawQueue := rest }
        if rest.isEmpty then
          { st := stopOutboundPlayback st', sent := some frame, markSent := true, logs := [] }
        else
          { st := st', sent := some frame, markSent := false, logs := [] }

/-- Run up to `n` ticks of the playback interval: a tick fires only while
the interval is set.  Returns the final state, the frames sent to the
transport in order, and the number of mark messages sent. -/
def runTicks (env : Env) : Nat → GLState → GLState × List (List Nat) × Nat
  | 0, st => (st, [], 0)
  | n + 1, st =>
    if st.outboundPlaybackTimer then
      let r := sendOneOutboundFrame env st
      let tail := runTicks env n r.st
      (tail.1, r.sent.toList ++ tail.2.1, (if r.markSent then 1 else 0) + tail.2.2)
    else (st, [], 0)

/-- The observable outcome of `stop()`: the final state, whether
`audioStreamEnd` was signalled to the backend, and whether the backend
session was closed. -/
structure StopResult where
  st : GLState
  audioStreamEndSignaled : Bool
  sessionClosed : Bool
deriving DecidableEq

/-- `stop()` of src/geminiLive.js: stop playback, flush the PCM remainder
padded with silence, stop the ffmpeg resampler, clear the transcript, the
inbound frame carry and the Outbound Queue, then signal end-of-input and
close the backend session if one is open. -/
def stop (st : GLState) : StopResult :=
  let st := stopOutboundPlayback st
  let st := flushOutboundPcmRemainderWithSilence st
  let st := stopFfmpegResampler st
  let st := { st with
    currentTurnTranscript := ""
    geminiFrameCarry := []
    outboundMulawQueue := [] }
  if st.geminiSessionOpen then
    { st := { st with geminiSessionOpen := false },
      audioStreamEndSignaled := true, sessionClosed := true }
  else
    { st := st, audioStreamEndSignaled := false, sessionClosed := false }

/-- The connection-related state of the translator: the live session handle
and the single in-flight connect promise, both by identifier. -/
structure SessionState where
  geminiSession : Option Nat
  geminiConnectPromise : Option Nat
deriving DecidableEq

/-- What a caller of `ensureGeminiSession` receives: nothing (no client
configured), the existing session, or a connect promise (in-flight or
freshly started). -/
inductive EnsureResult where
  | noClient : EnsureResult
  | existing : Nat → EnsureResult
  | promise : Nat → EnsureResult
deriving DecidableEq

/-- `ensureGeminiSession` of src/geminiLive.js, viewed as a state
transition: return null without a client; return the session if present;
return the in-flight promise if one exists; otherwise start one connection
attempt (the returned `Nat` counts attempts started by this call) and
store its promise. -/
def ensureGeminiSession (hasClient : Bool) (freshId : Nat) (st : SessionState) :
    EnsureResult × SessionState × Nat :=
  if hasClient = false then (.noClient, st, 0)
  else
    match st.geminiSession with
    | some s => (.existing s, st, 0)
    | none =>
      match st.geminiConnectPromise with
      | some p => (.promise p, st, 0)
      | none => (.promise freshId, { st with geminiConnectPromise := some freshId }, 1)

/-- Resolution of the connect promise: the `.then` handler stores the
session on success, the `.catch` handler leaves it unset on failure, and
the `.finally` handler always clears the in-flight promise.  No new
attempt is started. -/
def settleConnect (outcome : Option Nat) (st : SessionState) : SessionState :=
  { geminiSession := match outcome with | some s => some s | none => st.geminiSession
    geminiConnectPromise := none }

/-- `n` consecutive callers of `ensureGeminiSession` within one event-loop
turn (no resolution in between): the list of results, the final state, and
the total number of connection attempts started. -/
def ensureRepeat (hasClient : Bool) (freshId : Nat) :
    Nat → SessionState → List EnsureResult × SessionState × Nat
  | 0, st => ([], st, 0)
  | n + 1, st =>
    let r := ensureGeminiSession hasClient freshId st
    let tail := ensureRepeat hasClient freshId n r.2.1
    (r.1 :: tail.1, tail.2.1, r.2.2 + tail.2.2)

/-! ### Helper lemmas about the embedded operations -/

theorem stopOutboundPlayback_eq (st : GLState) :
    stopOutboundPlayback st = { st with outboundPlaybackTimer := false } := by
  cases hb : st.outboundPlaybackTimer
  · simp only [stopOutboundPlayback, hb, Bool.false_eq_true, if_false]
    rw [← hb]
  · simp [stopOutboundPlayback, hb]

theorem ensureOutboundPlayback_eq (st : GLState) :
    ensureOutboundPlayback st = { st with outboundPlaybackTimer := true } := by
  cases hb : st.outboundPlaybackTimer
  · simp [ensureOutboundPlayback, hb]
  · simp only [ensureOutboundPlayback, hb, if_true]
    rw [← hb]

theorem stopFfmpegResampler_eq (st : GLState) :
    stopFfmpegResampler st = { st with ffmpegPcmCarry := [], ffmpegResampler := false } := by
  cases hb : st.ffmpegResampler <;> simp [stopFfmpegResampler, hb]

theorem resetOutboundAudioPipeline_eq (st : GLState) :
    resetOutboundAudioPipeline st = { st with
      outboundMulawQueue := []
      outboundPcm8kRemainder := []
      fallbackPcm24kBuffer := []
      outboundPlaybackTimer := false
      ffmpegResampler := false
      ffmpegPcmCarry := [] } := by
  simp [resetOutboundAudioPipeline, stopOutboundPlayback_eq, stopFfmpegResampler_eq]

theorem frameSplitLoop_eq_of_lt (buf : List Nat) (h : buf.length < 320) :
    frameSplitLoop buf = ([], buf) := by
  unfold frameSplitLoop
  rw [dif_neg (by omega)]

theorem frameSplitLoop_rem_length (buf : List Nat) :
    (frameSplitLoop buf).2.length = buf.length % 320 := by
  induction buf using frameSplitLoop.induct with
  | case1 buf h ih =>
    rw [frameSplitLoop, dif_pos h]
    show (frameSplitLoop (buf.drop 320)).2.length = buf.length % 320
    rw [ih, List.length_drop]
    omega
  | case2 buf h =>
    rw [frameSplitLoop, dif_neg h]
    simp only [List.length_nil]
    omega

theorem frameSplitLoop_chunks_length (buf : List Nat) :
    (frameSplitLoop buf).1.length = buf.length / 320 := by
  induction buf using frameSplitLoop.induct with
  | case1 buf h ih =>
    rw [frameSplitLoop, dif_pos h]
    show (frameSplitLoop (buf.drop 320)).1.length + 1 = buf.length / 320
    rw [ih, List.length_drop]
    omega
  | case2 buf h =>
    rw [frameSplitLoop, dif_neg h]
    show 0 = buf.length / 320
    omega

theorem frameSplitLoop_append (a p : List Nat) :
    frameSplitLoop (a ++ p)
      = ((frameSplitLoop a).1 ++ (frameSplitLoop ((frameSplitLoop a).2 ++ p)).1,
         (frameSplitLoop ((frameSplitLoop a).2 ++ p)).2) := by
  induction a using frameSplitLoop.induct with
  | case1 a h ih =>
    have hlen : 320 ≤ (a ++ p).length := by simp; omega
    rw [frameSplitLoop, dif_pos hlen, List.take_append_of_le_length h,
      List.drop_append_of_le_length h]
    conv_rhs => rw [frameSplitLoop, dif_pos h]
    show (List.take 320 a :: (frameSplitLoop (a.drop 320 ++ p)).1,
        (frameSplitLoop (a.drop 320 ++ p)).2) = _
    rw [ih]
    simp [List.cons_append]
  | case2 a h =>
    have e : frameSplitLoop a = ([], a) := frameSplitLoop_eq_of_lt a (by omega)
    rw [e]
    simp

theorem trimToEven_length_even (p : List Nat) : (trimToEven p).length % 2 = 0 := by
  unfold trimToEven
  split
  · rename_i h; simp only [List.length_take]; omega
  · omega

theorem trimToEven_of_even (p : List Nat) (hp : p.length % 2 = 0) : trimToEven p = p := by
  unfold trimToEven
  rw [if_neg (by omega)]

theorem pcmToMulaw_length : ∀ l : List Nat, (pcmToMulaw l).length = l.length / 2
  | [] => by simp [pcmToMulaw]
  | [_] => by simp [pcmToMulaw]
  | _ :: _ :: rest => by
    simp only [pcmToMulaw, List.length_cons, pcmToMulaw_length rest]
    omega

theorem mulawToPcm_length : ∀ l : List Nat, (mulawToPcm l).length = 2 * l.length
  | [] => rfl
  | b :: rest => by
    simp only [mulawToPcm, writeInt16LE, List.length_append, List.length_cons,
      mulawToPcm_length rest]
    simp only [List.length_nil, List.length_cons]
    omega

theorem enqueueOutboundPcm8k_spec (st : GLState) (p : List Nat)
    (hlt : st.outboundPcm8kRemainder.length < 320) :
    (enqueueOutboundPcm8k st p).outboundMulawQueue
        = st.outboundMulawQueue
          ++ (frameSplitLoop (st.outboundPcm8kRemainder ++ trimToEven p)).1.map pcmToMulaw
  ∧ (enqueueOutboundPcm8k st p).outboundPcm8kRemainder
        = (frameSplitLoop (st.outboundPcm8kRemainder ++ trimToEven p)).2 := by
  by_cases h0 : p.length = 0
  · have hnil : p = [] := List.length_eq_zero.mp h0
    subst hnil
    simp [enqueueOutboundPcm8k, trimToEven, frameSplitLoop_eq_of_lt _ hlt]
  · by_cases hq0 : (trimToEven p).length = 0
    · have hnil : trimToEven p = [] := List.length_eq_zero.mp hq0
      simp only [enqueueOutboundPcm8k, if_neg h0, hnil, List.length_nil, if_pos rfl]
      simp [frameSplitLoop_eq_of_lt _ hlt]
    · simp only [enqueueOutboundPcm8k, if_neg h0, if_neg hq0]
      constructor <;> (split <;> simp [ensureOutboundPlayback_eq])

theorem enqueueOutboundPcm8k_starts_playback (st : GLState) (p : List Nat)
    (hp : p.length % 2 = 0) (hp0 : ¬ p.length = 0)
    (hq : 0 < st.outboundMulawQueue.length
        + (frameSplitLoop (st.outboundPcm8kRemainder ++ p)).1.length) :
    (enqueueOutboundPcm8k st p).outboundPlaybackTimer = true := by
  have hq0 : ¬ (trimToEven p).length = 0 := by
    rw [trimToEven_of_even p hp]; exact hp0
  simp only [enqueueOutboundPcm8k, if_neg hp0, if_neg hq0, trimToEven_of_even p hp]
  rw [if_pos (by simpa using hq), ensureOutboundPlayback_eq]

theorem enqueueOutboundPcm8k_preserves (st : GLState) (p : List Nat) :
    (enqueueOutboundPcm8k st p).fallbackPcm24kBuffer = st.fallbackPcm24kBuffer
  ∧ (enqueueOutboundPcm8k st p).ffmpegResampler = st.ffmpegResampler
  ∧ (enqueueOutboundPcm8k st p).ffmpegPcmCarry = st.ffmpegPcmCarry
  ∧ (enqueueOutboundPcm8k st p).currentTurnTranscript = st.currentTurnTranscript
  ∧ (enqueueOutboundPcm8k st p).geminiFrameCarry = st.geminiFrameCarry
  ∧ (enqueueOutboundPcm8k st p).geminiSessionOpen = st.geminiSessionOpen := by
  by_cases h0 : p.length = 0
  · simp only [enqueueOutboundPcm8k, if_pos h0]
    exact ⟨trivial, trivial, trivial, trivial, trivial, trivial⟩
  · by_cases hq0 : (trimToEven p).length = 0
    · simp only [enqueueOutboundPcm8k, if_neg h0, if_pos hq0]
      exact ⟨trivial, trivial, trivial, trivial, trivial, trivial⟩
    · simp only [enqueueOutboundPcm8k, if_neg h0, if_neg hq0]
      refine ⟨?_, ?_, ?_, ?_, ?_, ?_⟩ <;> (split <;> simp [ensureOutboundPlayback_eq])

theorem enqueueOutboundPcm8k_rem_invariant (st : GLState) (p : List Nat)
    (h2 : st.outboundPcm8kRemainder.length % 2 = 0)
    (hlt : st.outboundPcm8kRemainder.length < 320) :
    (enqueueOutboundPcm8k st p).outboundPcm8kRemainder.length % 2 = 0
  ∧ (enqueueOutboundPcm8k st p).outboundPcm8kRemainder.length < 320 := by
  rw [(enqueueOutboundPcm8k_spec st p hlt).2, frameSplitLoop_rem_length,
    List.length_append]
  have := trimToEven_length_even p
  omega

theorem enqueueOutboundPcm8k_foldl_rem_invariant (pushes : List (List Nat)) :
    ∀ st : GLState,
      st.outboundPcm8kRemainder.length % 2 = 0 →
      st.outboundPcm8kRemainder.length < 320 →
      (pushes.foldl enqueueOutboundPcm8k st).outboundPcm8kRemainder.length % 2 = 0
    ∧ (pushes.foldl enqueueOutboundPcm8k st).outboundPcm8kRemainder.length < 320 := by
  induction pushes with
  | nil => intro st h2 hlt; exact ⟨h2, hlt⟩
  | cons p rest ih =>
    intro st h2 hlt
    have hstep := enqueueOutboundPcm8k_rem_invariant st p h2 hlt
    simpa using ih (enqueueOutboundPcm8k st p) hstep.1 hstep.2

theorem enqueueOutboundPcm8k_foldl_even (pushes : List (List Nat)) :
    ∀ st : GLState, (∀ p ∈ pushes, p.length % 2 = 0) →
      st.outboundPcm8kRemainder.length < 320 →
      (pushes.foldl enqueueOutboundPcm8k st).outboundMulawQueue
        = st.outboundMulawQueue
          ++ (frameSplitLoop (st.outboundPcm8kRemainder ++ pushes.flatten)).1.map pcmToMulaw
    ∧ (pushes.foldl enqueueOutboundPcm8k st).outboundPcm8kRemainder
        = (frameSplitLoop (st.outboundPcm8kRemainder ++ pushes.flatten)).2 := by
  induction pushes with
  | nil =>
    intro st _ hlt
    simp [frameSplitLoop_eq_of_lt _ hlt]
  | cons p rest ih =>
    intro st hev hlt
    have hp : p.length % 2 = 0 := hev p (by simp)
    have hstep := enqueueOutboundPcm8k_spec st p hlt
    rw [trimToEven_of_even p hp] at hstep
    have hlt1 : (enqueueOutboundPcm8k st p).outboundPcm8kRemainder.length < 320 := by
      rw [hstep.2, frameSplitLoop_rem_length]; omega
    have ih' := ih (enqueueOutboundPcm8k st p) (fun q hq => hev q (by simp [hq])) hlt1
    have happ := frameSplitLoop_append (st.outboundPcm8kRemainder ++ p) rest.flatten
    simp only [List.foldl_cons, List.flatten_cons]
    rw [← List.append_assoc, happ]
    constructor
    · rw [ih'.1, hstep.1, hstep.2]
      simp [List.append_assoc]
    · rw [ih'.2, hstep.2]

theorem ensureRepeat_inflight (f : Nat) :
    ∀ n, ensureRepeat true f n ⟨none, some f⟩
      = (List.replicate n (.promise f), ⟨none, some f⟩, 0)
  | 0 => rfl
  | n + 1 => by
    simp [ensureRepeat, ensureGeminiSession, ensureRepeat_inflight f n,
      List.replicate_succ]

theorem ttsFrames_sizes (m : List Nat) : ∀ f ∈ ttsFrames m, f.length = 160 := by
  induction m using ttsFrames.induct with
  | case1 m h =>
    rw [ttsFrames, if_pos h]
    simp
  | case2 m h0 hge ih =>
    rw [ttsFrames, if_neg h0, dif_pos hge]
    intro f hf
    rcases List.mem_cons.mp hf with hf | hf
    · subst hf; simp only [List.length_take]; omega
    · exact ih f hf
  | case3 m h0 hlt =>
    rw [ttsFrames, if_neg h0, dif_neg hlt]
    intro f hf
    simp only [List.mem_singleton] at hf
    subst hf
    simp only [List.length_append, List.length_replicate]
    omega

theorem ttsFrames_flatten (m : List Nat) :
    (ttsFrames m).flatten
      = if m.length % 160 = 0 then m
        else m ++ List.replicate (160 - m.length % 160) 0x7f := by
  induction m using ttsFrames.induct with
  | case1 m h =>
    have hnil : m = [] := List.length_eq_zero.mp h
    subst hnil
    simp [ttsFrames]
  | case2 m h0 hge ih =>
    rw [ttsFrames, if_neg h0, dif_pos hge]
    have hmod : (m.drop 160).length % 160 = m.length % 160 := by
      rw [List.length_drop]; omega
    rw [List.flatten_cons, ih]
    by_cases hz : m.length % 160 = 0
    · rw [if_pos (by omega : (m.drop 160).length % 160 = 0), if_pos hz,
        List.take_append_drop]
    · rw [if_neg (by omega : ¬ (m.drop 160).length % 160 = 0), if_neg hz,
        ← List.append_assoc, List.take_append_drop, hmod]
  | case3 m h0 hlt =>
    rw [ttsFrames, if_neg h0, dif_neg hlt]
    have hm : m.length % 160 = m.length := Nat.mod_eq_of_lt (by omega)
    rw [if_neg (by omega)]
    simp [hm]

theorem runTicks_drain (env : Env) (hsid : env.streamSid ≠ none)
    (hready : env.wsReadyState = 1) :
    ∀ (frames : List (List Nat)) (st : GLState),
      st.outboundMulawQueue = frames → (∀ f ∈ frames, f.length = 160) →
      st.outboundPlaybackTimer = true → frames ≠ [] →
      runTicks env frames.length st
        = ({ st with outboundMulawQueue := [], outboundPlaybackTimer := false },
           frames, 1) := by
  intro frames
  induction frames with
  | nil => intro st _ _ _ hne; exact absurd rfl hne
  | cons f rest ih =>
    intro st hq hlen ht _
    have hcond : ¬ (env.streamSid = none ∨ env.wsReadyState ≠ 1) := by
      rintro (h | h)
      · exact hsid h
      · exact h hready
    have hf160 : ¬ f.length ≠ 160 := by
      have := hlen f (by simp)
      omega
    show runTicks env (rest.length + 1) st = _
    rw [runTicks]
    rw [ht, if_pos rfl]
    cases rest with
    | nil =>
      have htick : sendOneOutboundFrame env st
          = { st := { st with outboundMulawQueue := [], outboundPlaybackTimer := false },
              sent := some f, markSent := true, logs := [] } := by
        rw [sendOneOutboundFrame, if_neg hcond, hq]
        simp [if_neg hf160, stopOutboundPlayback_eq]
      rw [htick]
      simp [runTicks]
    | cons g rest2 =>
      have htick : sendOneOutboundFrame env st
          = { st := { st with outboundMulawQueue := g :: rest2 },
              sent := some f, markSent := false, logs := [] } := by
        rw [sendOneOutboundFrame, if_neg hcond, hq]
        simp [if_neg hf160]
      rw [htick]
      have ih' := ih { st with outboundMulawQueue := g :: rest2 } rfl
        (fun x hx => hlen x (List.mem_cons_of_mem f hx)) ht (by simp)
      simp only [ih']
      simp

/-! ### Claim theorems -/

/-- C1: the claim says every backend message carrying base64 PCM in
`message.data` is resampled, mu-law encoded, framed and enqueued on the
Outbound Queue.  In the source the whole `message.data` handling block of
`onmessage` is commented out, so a message carrying only binary audio
leaves the translator state — in particular the Outbound Queue — entirely
unchanged, contradicting the claim (and the factory's own doc comment). -/
theorem c1_backend_audio_message_ignored (env : Env) (tts : String → List Nat)
    (st : GLState) (pcm : List Nat) :
    onmessage env tts
      { interrupted := false, data := some pcm,
        outputTranscriptionText := none, turnComplete := false } st = st := by
  simp [onmessage]

/-- C2: on an interruption message the Outbound Queue, the PCM remainder
carry, the fallback 24 kHz buffer and the resampler-side carry are all
discarded, the playback timer is stopped and the resampler detached, and
no frame already enqueued is ever sent on any number of subsequent ticks. -/
theorem c2_interruption_hard_flush (env : Env) (tts : String → List Nat)
    (msg : ServerMessage) (st : GLState) (n : Nat) (h : msg.interrupted = true) :
    (onmessage env tts msg st).outboundMulawQueue = []
  ∧ (onmessage env tts msg st).outboundPcm8kRemainder = []
  ∧ (onmessage env tts msg st).fallbackPcm24kBuffer = []
  ∧ (onmessage env tts msg st).ffmpegPcmCarry = []
  ∧ (onmessage env tts msg st).outboundPlaybackTimer = false
  ∧ (onmessage env tts msg st).ffmpegResampler = false
  ∧ (runTicks env n (onmessage env tts msg st)).2.1 = []
  ∧ (runTicks env n (onmessage env tts msg st)).2.2 = 0 := by
  have he : onmessage env tts msg st
      = { st with
          currentTurnTranscript := ""
          outboundMulawQueue := []
          outboundPcm8kRemainder := []
          fallbackPcm24kBuffer := []
          outboundPlaybackTimer := false
          ffmpegResampler := false
          ffmpegPcmCarry := [] } := by
    rw [onmessage, h, if_pos rfl, resetOutboundAudioPipeline_eq]
  rw [he]
  refine ⟨rfl, rfl, rfl, rfl, rfl, rfl, ?_, ?_⟩ <;> (cases n <;> simp [runTicks])

theorem c2_interruption_hard_flush_witness :
    (onmessage { streamSid := some "MZ", wsReadyState := 1 } (fun _ => [])
        { interrupted := true, data := none, outputTranscriptionText := none,
          turnComplete := false }
        { initialState with
            outboundMulawQueue := [List.replicate 160 255]
            outboundPlaybackTimer := true
            outboundPcm8kRemainder := [1, 2]
            fallbackPcm24kBuffer := [5]
            ffmpegPcmCarry := [9]
            ffmpegResampler := true }).outboundMulawQueue = []
  ∧ (runTicks { streamSid := some "MZ", wsReadyState := 1 } 3
      (onmessage { streamSid := some "MZ", wsReadyState := 1 } (fun _ => [])
        { interrupted := true, data := none, outputTranscriptionText := none,
          turnComplete := false }
        { initialState with
            outboundMulawQueue := [List.replicate 160 255]
            outboundPlaybackTimer := true
            outboundPcm8kRemainder := [1, 2]
            fallbackPcm24kBuffer := [5]
            ffmpegPcmCarry := [9]
            ffmpegResampler := true })).2.1 = [] :=
  ⟨(c2_interruption_hard_flush { streamSid := some "MZ", wsReadyState := 1 }
      (fun _ => [])
      { interrupted := true, data := none, outputTranscriptionText := none,
        turnComplete := false }
      { initialState with
          outboundMulawQueue := [List.replicate 160 255]
          outboundPlaybackTimer := true
          outboundPcm8kRemainder := [1, 2]
          fallbackPcm24kBuffer := [5]
          ffmpegPcmCarry := [9]
          ffmpegResampler := true } 3 rfl).1,
   (c2_interruption_hard_flush { streamSid := some "MZ", wsReadyState := 1 }
      (fun _ => [])
      { interrupted := true, data := none, outputTranscriptionText := none,
        turnComplete := false }
      { initialState with
          outboundMulawQueue := [List.replicate 160 255]
          outboundPlaybackTimer := true
          outboundPcm8kRemainder := [1, 2]
          fallbackPcm24kBuffer := [5]
          ffmpegPcmCarry := [9]
          ffmpegResampler := true } 3 rfl).2.2.2.2.2.2.1⟩

/-- C3: a pacer tick on an empty queue stops the timer and sends nothing;
with `N ≥ 1` well-formed 160-byte frames queued, transport writable and a
stream id available, exactly `N` ticks send all `N` frames in order, leave
the queue empty, stop the timer, and emit exactly one completion mark. -/
theorem c3_pacer_cadence (env : Env) (st : GLState) (frames : List (List Nat))
    (hsid : env.streamSid ≠ none) (hready : env.wsReadyState = 1)
    (hq : st.outboundMulawQueue = frames) (hlen : ∀ f ∈ frames, f.length = 160)
    (ht : st.outboundPlaybackTimer = true) :
    (frames = [] → sendOneOutboundFrame env st
        = { st := stopOutboundPlayback st, sent := none, markSent := false,
            logs := [] })
  ∧ (frames ≠ [] → runTicks env frames.length st
        = ({ st with outboundMulawQueue := [], outboundPlaybackTimer := false },
           frames, 1)) := by
  have hcond : ¬ (env.streamSid = none ∨ env.wsReadyState ≠ 1) := by
    rintro (h | h)
    · exact hsid h
    · exact h hready
  constructor
  · intro hnil
    rw [sendOneOutboundFrame, if_neg hcond, hq, hnil]
  · intro hne
    exact runTicks_drain env hsid hready frames st hq hlen ht hne

theorem c3_pacer_cadence_witness :
    runTicks { streamSid := some "MZ", wsReadyState := 1 } 2
      { initialState with
          outboundMulawQueue := [List.replicate 160 255, List.replicate 160 7]
          outboundPlaybackTimer := true }
      = ({ initialState with
            outboundMulawQueue := ([] : List (List Nat))
            outboundPlaybackTimer := false },
         [List.replicate 160 255, List.replicate 160 7], 1) :=
  (c3_pacer_cadence { streamSid := some "MZ", wsReadyState := 1 }
    { initialState with
        outboundMulawQueue := [List.replicate 160 255, List.replicate 160 7]
        outboundPlaybackTimer := true }
    [List.replicate 160 255, List.replicate 160 7]
    (by simp) rfl rfl (by decide) rfl).2 (by decide)

/-- C4 (counterexample): the claim quantifies over every call sequence
whose total byte length is a multiple of 320, but a sequence of two pushes
of 321 and 319 bytes (total 640) yields one frame and a 318-byte carry,
not two frames and an empty carry, because each odd push is trimmed by one
byte before framing. -/
theorem c4_framer_counterexample :
    (321 + 319) % 320 = 0
  ∧ (List.foldl enqueueOutboundPcm8k initialState
      [List.replicate 321 0, List.replicate 319 0]).outboundMulawQueue.length = 1
  ∧ (List.foldl enqueueOutboundPcm8k initialState
      [List.replicate 321 0, List.replicate 319 0]).outboundPcm8kRemainder.length
      = 318 := by
  have ht1 : (trimToEven (List.replicate 321 (0 : Nat))).length = 320 := by
    rw [trimToEven, List.length_replicate, if_pos (by norm_num),
      List.length_take, List.length_replicate]
    omega
  have ht2 : (trimToEven (List.replicate 319 (0 : Nat))).length = 318 := by
    rw [trimToEven, List.length_replicate, if_pos (by norm_num),
      List.length_take, List.length_replicate]
    omega
  have h0q : initialState.outboundMulawQueue = [] := rfl
  have h0r : initialState.outboundPcm8kRemainder = [] := rfl
  have hs1 := enqueueOutboundPcm8k_spec initialState (List.replicate 321 0)
    (by rw [h0r]; simp)
  rw [h0q, h0r, List.nil_append, List.nil_append] at hs1
  have hq1 : (enqueueOutboundPcm8k initialState
      (List.replicate 321 0)).outboundMulawQueue.length = 1 := by
    rw [hs1.1, List.length_map, frameSplitLoop_chunks_length, ht1]
  have hr1 : (enqueueOutboundPcm8k initialState
      (List.replicate 321 0)).outboundPcm8kRemainder = [] := by
    rw [hs1.2]
    refine List.length_eq_zero.mp ?_
    rw [frameSplitLoop_rem_length, ht1]
  have hs2 := enqueueOutboundPcm8k_spec
    (enqueueOutboundPcm8k initialState (List.replicate 321 0))
    (List.replicate 319 0) (by rw [hr1]; simp)
  rw [hr1, List.nil_append] at hs2
  refine ⟨by decide, ?_, ?_⟩
  · simp only [List.foldl_cons, List.foldl_nil]
    rw [hs2.1, List.length_append, List.length_map, frameSplitLoop_chunks_length,
      ht2, hq1]
  · simp only [List.foldl_cons, List.foldl_nil]
    rw [hs2.2, frameSplitLoop_rem_length, ht2]

/-- C4 (amended): for every sequence of `enqueueOutboundPcm8k` calls each of
even byte length whose total is a multiple of 320, exactly `total/320`
mu-law frames — the encodings of the consecutive 320-byte chunks of the
concatenated input, in input order — are appended to the queue and the
carry is left empty; and after every call (any lengths) the carry holds
fewer than 320 bytes and an even number of bytes. -/
theorem c4_framer_alignment (pushes : List (List Nat)) (st : GLState)
    (hrem : st.outboundPcm8kRemainder = []) :
    ((∀ p ∈ pushes, p.length % 2 = 0) →
      (pushes.map List.length).sum % 320 = 0 →
        (pushes.foldl enqueueOutboundPcm8k st).outboundMulawQueue
            = st.outboundMulawQueue
              ++ (frameSplitLoop pushes.flatten).1.map pcmToMulaw
      ∧ (pushes.foldl enqueueOutboundPcm8k st).outboundMulawQueue.length
            = st.outboundMulawQueue.length + (pushes.map List.length).sum / 320
      ∧ (pushes.foldl enqueueOutboundPcm8k st).outboundPcm8kRemainder = [])
  ∧ ∀ k,
      ((pushes.take k).foldl enqueueOutboundPcm8k st).outboundPcm8kRemainder.length
          % 2 = 0
    ∧ ((pushes.take k).foldl enqueueOutboundPcm8k st).outboundPcm8kRemainder.length
          < 320 := by
  have hlt : st.outboundPcm8kRemainder.length < 320 := by rw [hrem]; simp
  constructor
  · intro heven hmod
    have hmain := enqueueOutboundPcm8k_foldl_even pushes st heven hlt
    rw [hrem] at hmain
    simp only [List.nil_append] at hmain
    have hsum : pushes.flatten.length = (pushes.map List.length).sum :=
      List.length_flatten pushes
    refine ⟨hmain.1, ?_, ?_⟩
    · rw [hmain.1]
      simp [frameSplitLoop_chunks_length, hsum]
    · rw [hmain.2]
      exact List.length_eq_zero.mp (by rw [frameSplitLoop_rem_length, hsum, hmod])
  · intro k
    exact enqueueOutboundPcm8k_foldl_rem_invariant (pushes.take k) st
      (by rw [hrem]; rfl) hlt

theorem c4_framer_alignment_witness :
    ([List.replicate 320 (0 : Nat)].foldl enqueueOutboundPcm8k
        initialState).outboundMulawQueue.length
      = initialState.outboundMulawQueue.length
        + ([List.replicate 320 (0 : Nat)].map List.length).sum / 320 :=
  ((c4_framer_alignment [List.replicate 320 0] initialState rfl).1
      (by intro p hp; simp only [List.mem_singleton] at hp; subst hp; simp)
      (by simp)).2.1

/-- C5: `mulawToPcm` returns exactly twice as many bytes as its input and
`pcmToMulaw` exactly half (integer division: the fractional allocation size
for an odd-length input is truncated by the typed-array constructor, so the
dangling byte is ignored); both are total functions of their input bytes. -/
theorem c5_codec_length_contract (mulawBuf pcmBuf : List Nat) :
    (mulawToPcm mulawBuf).length = 2 * mulawBuf.length
  ∧ (pcmToMulaw pcmBuf).length = pcmBuf.length / 2 :=
  ⟨mulawToPcm_length mulawBuf, pcmToMulaw_length pcmBuf⟩

/-- C6: the claim says decode-after-encode stays within the mu-law
quantization error bound and is monotone.  On this code the round trip of
PCM sample 1000 (bytes e8 03) yields 3004 — an error of 2004, far beyond
any mu-law quantization step — and the adjacent samples 16251 and 16252
decode to 32124 and 16764, so the mapping is not monotone either: the
encoder's segment thresholds (`0x1f << (exp + 2)`) do not match the
standard decode table it is paired with. -/
theorem c6_roundtrip_bug :
    mulawToPcm (pcmToMulaw (writeInt16LE 1000)) = writeInt16LE 3004
  ∧ MULAW_DECODE_TABLE (pcmToMulawSample 1000) = 3004
  ∧ MULAW_DECODE_TABLE (pcmToMulawSample 16251) = 32124
  ∧ MULAW_DECODE_TABLE (pcmToMulawSample 16252) = 16764
  ∧ MULAW_DECODE_TABLE (pcmToMulawSample 16252)
      < MULAW_DECODE_TABLE (pcmToMulawSample 16251) := by
  decide

/-- C7: `ensureGeminiSession` is idempotent: with a session present it is
returned unchanged with no new attempt; `n + 1` consecutive callers from
the idle state all receive the same connect promise while exactly one
attempt is started; resolving the promise with failure reverts to the idle
state (no session, no pending promise, no automatic retry), and resolving
with success installs the one session every waiting caller observes. -/
theorem c7_ensure_session_idempotent (f s : Nat) (n : Nat) (st : SessionState)
    (hs : st.geminiSession = some s) :
    ensureGeminiSession true f st = (.existing s, st, 0)
  ∧ ensureRepeat true f (n + 1) ⟨none, none⟩
      = (.promise f :: List.replicate n (.promise f), ⟨none, some f⟩, 1)
  ∧ settleConnect none ⟨none, some f⟩ = ⟨none, none⟩
  ∧ settleConnect (some s) ⟨none, some f⟩ = ⟨some s, none⟩ := by
  refine ⟨?_, ?_, rfl, rfl⟩
  · rw [ensureGeminiSession]
    simp [hs]
  · simp [ensureRepeat, ensureGeminiSession, ensureRepeat_inflight]

theorem c7_ensure_session_idempotent_witness :
    ensureGeminiSession true 1 ⟨some 5, none⟩ = (.existing 5, ⟨some 5, none⟩, 0)
  ∧ ensureRepeat true 1 3 ⟨none, none⟩
      = (.promise 1 :: List.replicate 2 (.promise 1), ⟨none, some 1⟩, 1) :=
  ⟨(c7_ensure_session_idempotent 1 5 2 ⟨some 5, none⟩ rfl).1,
   (c7_ensure_session_idempotent 1 5 2 ⟨some 5, none⟩ rfl).2.1⟩

/-- C8: the claim says the playback timer is never left running after
`stop()`.  With a buffered partial PCM frame (here two bytes), `stop()`
first stops the timer, but the silence-padded flush re-enqueues a frame and
restarts the timer via `ensureOutboundPlayback`; `stop()` then clears the
queue without stopping the timer again, so it returns with the timer
running (and the flushed frame destroyed, never sent).  The resampler is
detached and the remainder cleared as claimed. -/
theorem c8_stop_restarts_playback_timer :
    (stop { initialState with outboundPcm8kRemainder := [0, 0] }).st.outboundPlaybackTimer
        = true
  ∧ (stop { initialState with outboundPcm8kRemainder := [0, 0] }).st.outboundMulawQueue
        = []
  ∧ (stop { initialState with outboundPcm8kRemainder := [0, 0] }).st.ffmpegResampler
        = false
  ∧ (stop { initialState with outboundPcm8kRemainder := [0, 0] }).st.outboundPcm8kRemainder
        = [] := by
  have hpd : ([0, 0] ++ List.replicate 318 (0 : Nat)).length = 320 := by
    rw [List.length_append, List.length_replicate]
    rfl
  have hpde : ([0, 0] ++ List.replicate 318 (0 : Nat)).length % 2 = 0 := by
    rw [hpd]
  have h0q : initialState.outboundMulawQueue = [] := rfl
  have h0r : initialState.outboundPcm8kRemainder = [] := rfl
  have ha : stopOutboundPlayback { initialState with outboundPcm8kRemainder := [0, 0] }
      = { initialState with outboundPcm8kRemainder := [0, 0] } := by
    rw [stopOutboundPlayback_eq]
    rfl
  have hb : flushOutboundPcmRemainderWithSilence
        { initialState with outboundPcm8kRemainder := [0, 0] }
      = enqueueOutboundPcm8k initialState ([0, 0] ++ List.replicate 318 0) := by
    rw [flushOutboundPcmRemainderWithSilence]
    rw [if_neg (by decide)]
    rfl
  have hspec := enqueueOutboundPcm8k_spec initialState
    ([0, 0] ++ List.replicate 318 0) (by rw [h0r]; simp)
  rw [trimToEven_of_even _ hpde, h0q, h0r, List.nil_append, List.nil_append] at hspec
  have hrem1 : (enqueueOutboundPcm8k initialState
      ([0, 0] ++ List.replicate 318 0)).outboundPcm8kRemainder = [] := by
    rw [hspec.2]
    refine List.length_eq_zero.mp ?_
    rw [frameSplitLoop_rem_length, hpd]
  have htimer1 : (enqueueOutboundPcm8k initialState
      ([0, 0] ++ List.replicate 318 0)).outboundPlaybackTimer = true := by
    refine enqueueOutboundPcm8k_starts_playback initialState _ hpde
      (by rw [hpd]; omega) ?_
    rw [h0q, h0r, List.nil_append, frameSplitLoop_chunks_length, hpd]
    omega
  have hpres := enqueueOutboundPcm8k_preserves initialState
    ([0, 0] ++ List.replicate 318 0)
  have hsess : (enqueueOutboundPcm8k initialState
      ([0, 0] ++ List.replicate 318 0)).geminiSessionOpen = false := by
    rw [hpres.2.2.2.2.2]
    rfl
  have hstop : stop { initialState with outboundPcm8kRemainder := [0, 0] }
      = { st := { enqueueOutboundPcm8k initialState ([0, 0] ++ List.replicate 318 0) with
            ffmpegPcmCarry := []
            ffmpegResampler := false
            currentTurnTranscript := ""
            geminiFrameCarry := []
            outboundMulawQueue := [] }
          audioStreamEndSignaled := false
          sessionClosed := false } := by
    simp only [stop, ha, hb, stopFfmpegResampler_eq]
    rw [if_neg (by simp only [hsess]; simp)]
  rw [hstop]
  exact ⟨htimer1, rfl, rfl, hrem1⟩

/-- C9 (counterexample): the claim says a failed send on a closed or broken
connection is logged.  A tick with a non-open websocket (readyState 3) and
a frame queued abandons the send and stops the timer but logs nothing. -/
theorem c9_no_failure_log_counterexample :
    (sendOneOutboundFrame { streamSid := some "MZ", wsReadyState := 3 }
        { initialState with
            outboundMulawQueue := [List.replicate 160 255]
            outboundPlaybackTimer := true }).logs = []
  ∧ (sendOneOutboundFrame { streamSid := some "MZ", wsReadyState := 3 }
        { initialState with
            outboundMulawQueue := [List.replicate 160 255]
            outboundPlaybackTimer := true }).sent = none
  ∧ (sendOneOutboundFrame { streamSid := some "MZ", wsReadyState := 3 }
        { initialState with
            outboundMulawQueue := [List.replicate 160 255]
            outboundPlaybackTimer := true }).st.outboundPlaybackTimer = false := by
  decide

/-- C9 (amended): when the call transport is closed or no stream id is
available, the pacer tick abandons the send, stops its timer, sends
nothing, emits no mark, and logs nothing — the failure never propagates
beyond the tick. -/
theorem c9_transport_closed_tick (env : Env) (st : GLState)
    (h : env.streamSid = none ∨ env.wsReadyState ≠ 1) :
    sendOneOutboundFrame env st
      = { st := stopOutboundPlayback st, sent := none, markSent := false,
          logs := [] } := by
  rw [sendOneOutboundFrame, if_pos h]

theorem c9_transport_closed_tick_witness :
    sendOneOutboundFrame { streamSid := none, wsReadyState := 1 } initialState
      = { st := stopOutboundPlayback initialState, sent := none, markSent := false,
          logs := [] } :=
  c9_transport_closed_tick { streamSid := none, wsReadyState := 1 } initialState
    (Or.inl rfl)

/-- C10: for non-empty text, a writable transport and an available stream
id, `playTts` enqueues the synthesized mu-law audio on the same Outbound
Queue as backend audio, split into 160-byte frames whose concatenation is
the audio padded on the final partial frame with the mu-law silence byte
0x7f, and ensures the playback pacer is running. -/
theorem c10_playTts_enqueues_padded_frames (env : Env) (tts : String → List Nat)
    (st : GLState) (text : String) (sid : String)
    (htext : text ≠ "") (hsid : env.streamSid = some sid)
    (hready : env.wsReadyState = 1) (haudio : ¬ (tts text).length = 0) :
    (playTts env tts st text).outboundMulawQueue
        = st.outboundMulawQueue ++ ttsFrames (tts text)
  ∧ (playTts env tts st text).outboundPlaybackTimer = true
  ∧ (∀ f ∈ ttsFrames (tts text), f.length = 160)
  ∧ ((tts text).length % 160 = 0 → (ttsFrames (tts text)).flatten = tts text)
  ∧ ((tts text).length % 160 ≠ 0 →
        (ttsFrames (tts text)).flatten
          = tts text ++ List.replicate (160 - (tts text).length % 160) 0x7f) := by
  have hcond : ¬ (text = "" ∨ env.streamSid = none ∨ env.wsReadyState ≠ 1) := by
    rintro (h | h | h)
    · exact htext h
    · rw [hsid] at h; exact Option.noConfusion h
    · exact h hready
  have hp : playTts env tts st text
      = ensureOutboundPlayback
          { st with outboundMulawQueue :=
              st.outboundMulawQueue ++ ttsFrames (tts text) } := by
    rw [playTts, if_neg hcond]
    simp only [if_neg haudio]
  refine ⟨?_, ?_, ttsFrames_sizes (tts text), ?_, ?_⟩
  · rw [hp, ensureOutboundPlayback_eq]
  · rw [hp, ensureOutboundPlayback_eq]
  · intro hz
    rw [ttsFrames_flatten, if_pos hz]
  · intro hz
    rw [ttsFrames_flatten, if_neg hz]

theorem c10_playTts_enqueues_padded_frames_witness :
    (playTts { streamSid := some "MZ", wsReadyState := 1 }
        (fun _ => List.replicate 200 1) initialState "ok").outboundMulawQueue
      = initialState.outboundMulawQueue ++ ttsFrames (List.replicate 200 1)
  ∧ (ttsFrames (List.replicate 200 1)).flatten
      = List.replicate 200 1 ++ List.replicate 120 0x7f :=
  ⟨(c10_playTts_enqueues_padded_frames { streamSid := some "MZ", wsReadyState := 1 }
      (fun _ => List.replicate 200 1) initialState "ok" "MZ"
      (by simp) rfl rfl (by simp)).1,
   (c10_playTts_enqueues_padded_frames { streamSid := some "MZ", wsReadyState := 1 }
      (fun _ => List.replicate 200 1) initialState "ok" "MZ"
      (by simp) rfl rfl (by simp)).2.2.2.2 (by simp)⟩

end MeetingBot
